import Mathlib

/-!
Verification of the LanceDB node bindings' index/query core.

The repository's own files expose the surface in `src/nodejs/vectordb/native.d.ts`
(`IndexType`, `MetricType`, `IndexBuilder`, `Query`, `RecordBatchIterator`,
`Table`); the core behind those declarations (VectorCodec, Partitioner,
IndexStore, IndexBuilder, QueryPlanner/Executor, BatchStream) is implemented in
a native module that is not part of the checked-in sources.  Definitions below
that embed the missing core carry a doc comment starting `Modelled from the
spec:` naming the section of the specification they are taken from.
-/

namespace LanceDB

/-- Index kind, from `native.d.ts` (`IndexType`: `Scalar = 0`, `IvfPq = 1`). -/
inductive IndexType
  | scalar
  | ivfPq
deriving DecidableEq, Repr

/-- Distance metric, from `native.d.ts` (`MetricType`: `L2`, `Cosine`, `Dot`). -/
inductive MetricType
  | l2
  | cosine
  | dot
deriving DecidableEq, Repr

/-- Vectors are fixed-length sequences of numbers (spec §3).  The model uses
exact rationals in place of machine floats. -/
abbrev Vec := List ℚ

/-- Dot product of two vectors (pointwise product, summed). -/
def dotProd (a b : Vec) : ℚ := ((a.zip b).map (fun p => p.1 * p.2)).sum

/-- L2 distance: sum of squared differences (spec §4.1, lower is closer). -/
def l2Dist (a b : Vec) : ℚ := ((a.zip b).map (fun p => (p.1 - p.2) ^ 2)).sum

/-- Squared Euclidean norm. -/
def normSq (a : Vec) : ℚ := dotProd a a

/-- Modelled from the spec: §4.1 metric semantics of the VectorCodec, which is
not among the checked-in sources.  L2 = sum of squared differences; Dot =
negated dot product.  Cosine is specified as `1 − cosine similarity`; since the
norms' square root is irrational in general, the model divides by the product
of squared norms instead — none of the verified claims depend on the cosine
formula, only on "lower is closer" ranking by whatever value `dist` returns. -/
def dist (m : MetricType) (a b : Vec) : ℚ :=
  match m with
  | .l2 => l2Dist a b
  | .cosine => 1 - dotProd a b / (normSq a * normSq b)
  | .dot => -dotProd a b

/-- Column type: fixed-width vector column (with its dimensionality) or a
scalar column (spec §3, Table schema). -/
inductive ColType
  | vector (dim : Nat)
  | scalar
deriving DecidableEq, Repr

/-- Table schema: named, typed columns (spec §6, table data source `schema()`). -/
structure Schema where
  cols : List (String × ColType)
deriving DecidableEq

/-- One stored row: a rowId, the vector column values and the scalar column
values (spec §3, Table / Fragment contents). -/
structure Row where
  rowId : Nat
  vecs : List (String × Vec)
  scalars : List (String × Int)
deriving DecidableEq

/-- A table: schema plus rows (spec §3). -/
structure Table where
  schema : Schema
  rows : List Row
deriving DecidableEq

/-- Value of a vector column in a row (rows conform to the schema, so the
default is only reached on schema-invalid input, which validation rejects). -/
def lookupVec (r : Row) (c : String) : Vec := (r.vecs.lookup c).getD []

/-- Value of a scalar column in a row, when present. -/
def lookupScalar (r : Row) (c : String) : Option Int := r.scalars.lookup c

/-- Modelled from the spec: §9 — the filter predicate is a small typed
boolean-expression tree over comparison/logical nodes, parsed once at
query-plan time.  The free-form filter string of `Query.filter` in
`native.d.ts` is represented by its parsed tree. -/
inductive Pred
  | tru
  | eqv (c : String) (v : Int)
  | ltv (c : String) (v : Int)
  | gtv (c : String) (v : Int)
  | conj (p q : Pred)
  | disj (p q : Pred)
  | neg (p : Pred)
deriving DecidableEq, Repr

/-- Evaluate a predicate against a row; comparisons on a column the row lacks
are false (validation rejects predicates over unknown columns). -/
def evalPred : Pred → Row → Bool
  | .tru, _ => true
  | .eqv c v, r => lookupScalar r c == some v
  | .ltv c v, r =>
    match lookupScalar r c with
    | some x => decide (x < v)
    | none => false
  | .gtv c v, r =>
    match lookupScalar r c with
    | some x => decide (v < x)
    | none => false
  | .conj p q, r => evalPred p r && evalPred q r
  | .disj p q, r => evalPred p r || evalPred q r
  | .neg p, r => !evalPred p r

/-- Columns referenced by a predicate. -/
def predCols : Pred → List String
  | .tru => []
  | .eqv c _ => [c]
  | .ltv c _ => [c]
  | .gtv c _ => [c]
  | .conj p q => predCols p ++ predCols q
  | .disj p q => predCols p ++ predCols q
  | .neg p => predCols p

/-- Does the schema list `c` as a scalar column? -/
def schemaHasScalar (s : Schema) (c : String) : Bool := s.cols.lookup c == some ColType.scalar

/-- Dimensionality of a vector column, when the schema has one of that name. -/
def schemaVecDim (s : Schema) (c : String) : Option Nat :=
  match s.cols.lookup c with
  | some (ColType.vector d) => some d
  | _ => none

/-- A predicate is well-formed for a schema when every referenced column is an
existing scalar column (spec §4.4 Planned). -/
def predColsOk (s : Schema) (p : Pred) : Bool := (predCols p).all (fun c => schemaHasScalar s c)

instance {ε α : Type} [DecidableEq ε] [DecidableEq α] : DecidableEq (Except ε α) := fun a b =>
  match a, b with
  | .error e, .error e' =>
    if h : e = e' then isTrue (by rw [h]) else isFalse (by intro hc; cases hc; exact h rfl)
  | .error _, .ok _ => isFalse (by intro hc; cases hc)
  | .ok _, .error _ => isFalse (by intro hc; cases hc)
  | .ok x, .ok y =>
    if h : x = y then isTrue (by rw [h]) else isFalse (by intro hc; cases hc; exact h rfl)

/-- Error taxonomy (spec §7). -/
inductive DbError
  | configError
  | conflictError
  | dataError
  | notFoundError
deriving DecidableEq, Repr

/-- Query specification (spec §3 QuerySpec; the fields mirror the setters of
`Query` in `native.d.ts`: `column`, `nearestTo`, `limit`, `filter`,
`prefilter`, `select`, `refineFactor`, `nprobes`). -/
structure QuerySpec where
  vectorColumn : String
  queryVector : Vec
  k : Int
  filterPredicate : Option Pred
  prefilter : Bool
  projection : List String
  refineFactor : Int
  nprobes : Int
  metricType : MetricType
deriving DecidableEq

/-- Is the optional filter predicate well-formed for the schema? -/
def predOkB (s : Schema) : Option Pred → Bool
  | none => true
  | some p => predColsOk s p

/-- Modelled from the spec: §4.4 Planned-state validation of the
QueryPlanner, which is not among the checked-in sources — the query vector's
dimensionality must match the column (which must exist as a vector column),
`k > 0`, `nprobes > 0`, `refineFactor ≥ 1` (spec §6), and the filter predicate
must reference only existing scalar columns. -/
def queryValidB (s : Schema) (q : QuerySpec) : Bool :=
  (schemaVecDim s q.vectorColumn == some q.queryVector.length) &&
  decide (0 < q.k) && decide (0 < q.nprobes) && decide (1 ≤ q.refineFactor) &&
  predOkB s q.filterPredicate

/-- Validation step: fails fast with `ConfigError` before touching data
(spec §4.4, §7). -/
def validateQuery (s : Schema) (q : QuerySpec) : Except DbError Unit :=
  if queryValidB s q then .ok () else .error .configError

/-- The invalid query parameterizations named by the spec (§7): query-vector
dimensionality not matching the column (or the column missing or not a vector
column), `k ≤ 0`, `nprobes ≤ 0`, or a malformed filter predicate (one
referencing non-existent columns). -/
def queryInvalid (s : Schema) (q : QuerySpec) : Prop :=
  schemaVecDim s q.vectorColumn ≠ some q.queryVector.length ∨ q.k ≤ 0 ∨ q.nprobes ≤ 0 ∨
  predOkB s q.filterPredicate = false

/-- A search candidate: a row together with its distance from the query vector
(spec §3 Candidate). -/
structure Candidate where
  row : Row
  distance : ℚ
deriving DecidableEq

/-- Ranking order by a rational key, ties broken by a natural-number key
(spec §4.4: distance ascending, ties by lowest rowId for determinism). -/
def keyOrder (f : α → ℚ) (g : α → Nat) (a b : α) : Prop :=
  f a < f b ∨ (f a = f b ∧ g a ≤ g b)

instance (f : α → ℚ) (g : α → Nat) : DecidableRel (keyOrder f g) := fun a b => by
  unfold keyOrder
  infer_instance

instance (f : α → ℚ) (g : α → Nat) : IsTotal α (keyOrder f g) := by
  constructor
  intro a b
  rcases lt_trichotomy (f a) (f b) with h | h | h
  · exact Or.inl (Or.inl h)
  · rcases Nat.le_total (g a) (g b) with h' | h'
    · exact Or.inl (Or.inr ⟨h, h'⟩)
    · exact Or.inr (Or.inr ⟨h.symm, h'⟩)
  · exact Or.inr (Or.inl h)

instance (f : α → ℚ) (g : α → Nat) : IsTrans α (keyOrder f g) := by
  constructor
  intro a b c hab hbc
  rcases hab with h1 | ⟨h1, h1'⟩
  · rcases hbc with h2 | ⟨h2, _⟩
    · exact Or.inl (h1.trans h2)
    · exact Or.inl (h2 ▸ h1)
  · rcases hbc with h2 | ⟨h2, h2'⟩
    · exact Or.inl (h1 ▸ h2)
    · exact Or.inr ⟨h1.trans h2, h1'.trans h2'⟩

/-- Candidate ranking: distance ascending, ties by ascending rowId. -/
abbrev candOrder : Candidate → Candidate → Prop :=
  keyOrder (fun c => c.distance) (fun c => c.row.rowId)

/-- The candidate a row contributes: the row paired with its exact distance to
the query vector. -/
def candOf (m : MetricType) (qv : Vec) (col : String) (r : Row) : Candidate :=
  ⟨r, dist m qv (lookupVec r col)⟩

/-- Modelled from the spec: §4.4 Filtering, prefilter mode — the admissible
rowId set is the set of rows satisfying the filter predicate (evaluated with a
ScalarIndex or a full scan, which agree for a fresh index). -/
def admissibleRows (t : Table) (q : QuerySpec) : List Row :=
  match q.filterPredicate with
  | some p => t.rows.filter (fun r => evalPred p r)
  | none => t.rows

/-- Rows considered during Searching: the admissible set under prefilter, all
rows otherwise (spec §4.4). -/
def consideredRows (t : Table) (q : QuerySpec) : List Row :=
  if q.prefilter then admissibleRows t q else t.rows

/-- Modelled from the spec: §4.4 Searching/Refining of the QueryExecutor,
which is not among the checked-in sources.  The executor retains the top
candidates among the considered rows ranked by distance ascending with ties by
lowest rowId; the model computes the exact distances the Refining stage
produces (spec §8 fixes the result semantics to agree with exact ranking over
the considered set), and represents the bounded top-pool min-structure as a
full sort followed by a prefix. -/
def rankedCandidates (t : Table) (q : QuerySpec) : List Candidate :=
  List.insertionSort candOrder
    ((consideredRows t q).map (candOf q.metricType q.queryVector q.vectorColumn))

/-- Size of the retained candidate pool: `k * refineFactor` (spec §4.4). -/
def poolSize (q : QuerySpec) : Nat := q.k.toNat * q.refineFactor.toNat

/-- The retained top-`k * refineFactor` candidate pool (spec §4.4). -/
def searchPool (t : Table) (q : QuerySpec) : List Candidate :=
  (rankedCandidates t q).take (poolSize q)

/-- Does a candidate pass the query's filter predicate? -/
def passesFilter (q : QuerySpec) (c : Candidate) : Bool :=
  match q.filterPredicate with
  | some p => evalPred p c.row
  | none => true

/-- Modelled from the spec: §4.4 Filtering, postfilter mode — with
`prefilter=false` the search ran unfiltered and candidates failing the
predicate are dropped after ranking; with `prefilter=true` the pool already
satisfies the predicate. -/
def postFiltered (t : Table) (q : QuerySpec) : List Candidate :=
  if q.prefilter then searchPool t q else (searchPool t q).filter (passesFilter q)

/-- Candidates of the approximate top pool dropped by the post-ranking filter
(empty under prefilter). -/
def droppedCandidates (t : Table) (q : QuerySpec) : List Candidate :=
  if q.prefilter then [] else (searchPool t q).filter (fun c => !passesFilter q c)

/-- Final result candidates: at most `k` of the surviving ranked candidates
(spec §4.4 Streaming). -/
def finalCandidates (t : Table) (q : QuerySpec) : List Candidate :=
  (postFiltered t q).take q.k.toNat

/-- One row of a result batch: the projected scalar columns plus the computed
distance column (spec §3 ResultBatch, §4.4 Streaming). -/
structure ResultRow where
  rowId : Nat
  distance : ℚ
  values : List (String × Int)
deriving DecidableEq

/-- Project a candidate onto the selected columns plus the distance column
(empty projection = all columns, spec §6). -/
def projectRow (proj : List String) (c : Candidate) : ResultRow :=
  { rowId := c.row.rowId, distance := c.distance,
    values := if proj.isEmpty then c.row.scalars
              else c.row.scalars.filter (fun p => proj.contains p.1) }

/-- Result-row order: distance ascending, ties by ascending rowId. -/
abbrev resultOrder : ResultRow → ResultRow → Prop :=
  keyOrder (fun r => r.distance) (fun r => r.rowId)

/-- Bound on the number of rows per yielded batch (spec §4.4 Streaming:
"batches of a bounded size"). -/
def batchSize : Nat := 1024

/-- Chunk a list into consecutive batches of at most `max 1 cap` elements;
concatenating the chunks restores the list. -/
def chunkAux (cap : Nat) : List α → List α → Nat → List (List α)
  | [], cur, _ => if cur.isEmpty then [] else [cur.reverse]
  | x :: xs, cur, 0 => cur.reverse :: chunkAux cap xs [x] (cap - 1)
  | x :: xs, cur, r + 1 => chunkAux cap xs (x :: cur) r

/-- Chunk a list into batches of bounded size. -/
def chunkList (cap : Nat) (l : List α) : List (List α) :=
  match l with
  | [] => []
  | x :: xs => chunkAux cap xs [x] (cap - 1)

/-- The ordered result rows of a query (before batching). -/
def resultRows (t : Table) (q : QuerySpec) : List ResultRow :=
  (finalCandidates t q).map (projectRow q.projection)

/-- The result batches of a query (spec §4.4 Streaming). -/
def resultBatches (t : Table) (q : QuerySpec) : List (List ResultRow) :=
  chunkList batchSize (resultRows t q)

/-- Modelled from the spec: §4.4 `execute(spec, table) -> BatchStream |
ConfigError`, the entry point behind `Query.executeStream` of `native.d.ts`.
Validation happens first, before any row is read; on success the batches of
the exact-ranking semantics are produced. -/
def execute (t : Table) (q : QuerySpec) : Except DbError (List (List ResultRow)) :=
  match validateQuery t.schema q with
  | .error e => .error e
  | .ok _ => .ok (resultBatches t q)

/-! ### Partitioner and VectorCodec (index build) -/

/-- Index of the centroid nearest to `v` (ties broken by lowest index, i.e.
centroid insertion order — spec §4.2). -/
def nearestIdx (m : MetricType) (v : Vec) (cents : List Vec) : Nat :=
  (cents.enum.foldl
    (fun (best : Nat × Option ℚ) p =>
      match best.2 with
      | none => (p.1, some (dist m v p.2))
      | some d => if dist m v p.2 < d then (p.1, some (dist m v p.2)) else best)
    (0, none)).1

/-- Pointwise sum of two vectors. -/
def vecAdd (a b : Vec) : Vec := (a.zip b).map (fun p => p.1 + p.2)

/-- Scale a vector by a rational. -/
def vecScale (q : ℚ) (v : Vec) : Vec := v.map (fun x => q * x)

/-- Mean of a cluster of vectors; an empty cluster keeps the previous
centroid (so k-means never loses a centroid). -/
def meanVec (old : Vec) (vs : List Vec) : Vec :=
  match vs with
  | [] => old
  | v :: rest => vecScale (1 / (rest.length + 1 : ℚ)) (rest.foldl vecAdd v)

/-- Modelled from the spec: §4.2 Partitioner — one k-means step: reassign
every point to its nearest centroid, then recompute each centroid as the mean
of its cluster. -/
def kmeansStep (m : MetricType) (pts : List Vec) (cents : List Vec) : List Vec :=
  cents.enum.map (fun p => meanVec p.2 (pts.filter (fun v => nearestIdx m v cents == p.1)))

/-- Iterate k-means for at most `maxIterations` steps (spec §4.2). -/
def kmeansIter (m : MetricType) (pts : List Vec) : Nat → List Vec → List Vec
  | 0, cs => cs
  | n + 1, cs => kmeansIter m pts n (kmeansStep m pts cs)

/-- Modelled from the spec: §4.2 `train(sampleVectors, numPartitions,
maxIterations) -> Centroids` of the Partitioner, which is not among the
checked-in sources.  Initialization samples deterministically (fixed seed,
spec §4.2): the model takes the first `numClusters` distinct training points,
capping the effective number of centroids at the number of distinct points. -/
def kmeansTrain (m : MetricType) (pts : List Vec) (numClusters maxIter : Nat) : List Vec :=
  kmeansIter m pts maxIter (pts.dedup.take numClusters)

/-- Split a vector into `nsv` equal contiguous sub-vectors (spec §4.1; the
dimensionality is validated to be divisible by `nsv`). -/
def subVectors (nsv : Nat) (v : Vec) : List Vec := chunkList (v.length / nsv) v

/-- Modelled from the spec: §4.1 VectorCodec codebook training — per
sub-vector position, a codebook of `2 ^ numBits` centroids trained by k-means
over the samples' sub-vectors at that position. -/
def trainCodebooks (m : MetricType) (samples : List Vec) (nsv numBits maxIter : Nat) :
    List (List Vec) :=
  (List.range nsv).map (fun j =>
    kmeansTrain m (samples.map (fun v => (subVectors nsv v).getD j [])) (2 ^ numBits) maxIter)

/-- Modelled from the spec: §4.1 `encode(vector, Codebooks) -> PQCode` — each
sub-vector is replaced by the index of its nearest codebook centroid. -/
def encodePQ (m : MetricType) (cbs : List (List Vec)) (nsv : Nat) (v : Vec) : List Nat :=
  (subVectors nsv v).enum.map (fun p => nearestIdx m p.2 (cbs.getD p.1 []))

/-- Modelled from the spec: §4.1 `approxDistance` — sums per-sub-vector
partial distances between the query's sub-vectors and the coded centroids,
never materializing the decoded vector. -/
def approxDist (m : MetricType) (cbs : List (List Vec)) (nsv : Nat) (qv : Vec)
    (code : List Nat) : ℚ :=
  (((subVectors nsv qv).zip code).enum.map
    (fun p => dist m p.2.1 ((cbs.getD p.1 []).getD p.2.2 []))).sum

/-! ### IndexStore and IndexBuilder -/

/-- The IVF-PQ index artifact (spec §3 IvfPqIndex), tagged with the column it
indexes (spec §3 IndexDescriptor.targetColumn). -/
structure IvfPqIndex where
  column : String
  metricType : MetricType
  numPartitions : Nat
  numSubVectors : Nat
  numBits : Nat
  centroids : List Vec
  codebooks : List (List Vec)
  postings : List (List (Nat × List Nat))
deriving DecidableEq

/-- A built index artifact: IVF-PQ over a vector column, or a scalar index
(ordered value-to-rowId mapping, spec §3 ScalarIndex). -/
inductive IndexArtifact
  | ivfPq (idx : IvfPqIndex)
  | scalar (column : String) (entries : List (Int × Nat))
deriving DecidableEq

/-- Modelled from the spec: §2 IndexStore — built artifacts keyed by index
name, with replace-or-fail semantics. -/
abbrev IndexStore := List (String × IndexArtifact)

/-- Build parameters (spec §6 IndexBuilder configuration surface; the fields
mirror the setters of `IndexBuilder` in `native.d.ts`: `replace`, `column`,
`name`, `ivfPq(metricType, numPartitions, numSubVectors, numBits,
maxIterations, sampleRate)`, `scalar`). -/
structure IndexParams where
  name : String
  column : String
  replace : Bool
  indexType : IndexType
  metricType : MetricType
  numPartitions : Nat
  numSubVectors : Nat
  numBits : Nat
  maxIterations : Nat
deriving DecidableEq

/-- Modelled from the spec: §4.3 build-time validation — the target column
must exist with the right type; for IvfPq the sub-vector count must divide the
dimensionality and the numeric knobs must be positive. -/
def buildValidB (s : Schema) (p : IndexParams) : Bool :=
  match p.indexType with
  | .ivfPq =>
    match schemaVecDim s p.column with
    | some d =>
      decide (0 < p.numSubVectors) && decide (d % p.numSubVectors = 0) &&
      decide (0 < p.numPartitions) && decide (0 < p.numBits)
    | none => false
  | .scalar => schemaHasScalar s p.column

/-- Validation step of the builder: fails with `ConfigError` before touching
data (spec §4.3, §7). -/
def validateBuild (s : Schema) (p : IndexParams) : Except DbError Unit :=
  if buildValidB s p then .ok () else .error .configError

/-- Does the target column exist as a vector column whose dimensionality
`numSubVectors` divides? -/
def subVectorsDivideB (s : Schema) (p : IndexParams) : Bool :=
  match schemaVecDim s p.column with
  | some d => decide (d % p.numSubVectors = 0)
  | none => false

/-- The invalid IvfPq build parameterizations named by the spec (§7):
unknown (or non-vector) target column, or `numSubVectors` not dividing the
column dimensionality. -/
def buildInvalid (s : Schema) (p : IndexParams) : Prop :=
  p.indexType = IndexType.ivfPq ∧ subVectorsDivideB s p = false

/-- The training sample: the indexed column of every row (spec §4.3; the
model's deterministic sample is the full column). -/
def trainingVectors (t : Table) (p : IndexParams) : List Vec :=
  t.rows.map (fun r => lookupVec r p.column)

/-- Modelled from the spec: §4.3 IvfPq build path — train the Partitioner,
train global codebooks, then stream all rows assigning each to a partition and
appending `(rowId, pqCode)` to that partition's posting list. -/
def buildIvfPq (t : Table) (p : IndexParams) : IvfPqIndex :=
  let samples := trainingVectors t p
  let cents := kmeansTrain p.metricType samples p.numPartitions p.maxIterations
  let cbs := trainCodebooks p.metricType samples p.numSubVectors p.numBits p.maxIterations
  { column := p.column, metricType := p.metricType, numPartitions := cents.length,
    numSubVectors := p.numSubVectors, numBits := p.numBits, centroids := cents,
    codebooks := cbs,
    postings := (List.range cents.length).map (fun i =>
      (t.rows.filter (fun r => nearestIdx p.metricType (lookupVec r p.column) cents == i)).map
        (fun r => (r.rowId, encodePQ p.metricType cbs p.numSubVectors (lookupVec r p.column)))) }

/-- Ordering of scalar-index entries: by value, ties by rowId. -/
abbrev scalarEntryOrder : Int × Nat → Int × Nat → Prop :=
  keyOrder (fun e => (e.1 : ℚ)) (fun e => e.2)

/-- Modelled from the spec: §4.3 scalar build path — stream all rows,
collecting `(value, rowId)` into an ordered structure. -/
def buildScalar (t : Table) (col : String) : IndexArtifact :=
  .scalar col
    (List.insertionSort scalarEntryOrder
      (t.rows.filterMap (fun r => (lookupScalar r col).map (fun v => (v, r.rowId)))))

/-- The artifact a successful build publishes. -/
def builtArtifact (t : Table) (p : IndexParams) : IndexArtifact :=
  match p.indexType with
  | .ivfPq => .ivfPq (buildIvfPq t p)
  | .scalar => buildScalar t p.column

/-- Modelled from the spec: §4.3 — atomically publish the new artifact,
replacing any prior one under the same name in a single visible step. -/
def publishIndex (store : IndexStore) (name : String) (art : IndexArtifact) : IndexStore :=
  (name, art) :: store.filter (fun e => e.1 != name)

/-- Modelled from the spec: §4.3 `build(tableDataSource, descriptor)` of the
IndexBuilder, which is not among the checked-in sources (surface:
`IndexBuilder.build` in `native.d.ts`).  Configuration is validated first
(spec §7: `ConfigError` is surfaced before any data access); then, with
`replace=false`, an existing index of the same name fails the build with
`ConflictError` without touching the old artifact; otherwise the artifact is
built and atomically published.  Returns the store after the call together
with the outcome. -/
def buildIndex (store : IndexStore) (t : Table) (p : IndexParams) :
    IndexStore × Except DbError Unit :=
  match validateBuild t.schema p with
  | .error e => (store, .error e)
  | .ok _ =>
    if p.replace = false ∧ (store.lookup p.name).isSome then (store, .error .conflictError)
    else (publishIndex store p.name (builtArtifact t p), .ok ())

/-! ### Index-accelerated query execution -/

/-- The first IVF-PQ artifact in the store indexing the given column. -/
def findIvf (store : IndexStore) (col : String) : Option IvfPqIndex :=
  store.findSome? (fun e =>
    match e.2 with
    | .ivfPq idx => if idx.column = col then some idx else none
    | .scalar _ _ => none)

/-- Modelled from the spec: §4.2 `rank(queryVector, Centroids, nprobes)` —
the `nprobes` centroids closest to the query vector, ties broken by centroid
insertion order. -/
def rankPartitions (m : MetricType) (qv : Vec) (cents : List Vec) (nprobes : Nat) : List Nat :=
  ((List.insertionSort (keyOrder (fun p : Nat × Vec => dist m qv p.2) (fun p => p.1))
    cents.enum).take nprobes).map (fun p => p.1)

/-- Modelled from the spec: §4.4 Searching with an IvfPq index — scan the
posting lists of the `nprobes` selected partitions, computing `approxDistance`
per candidate; under prefilter, only candidates in the admissible rowId set
are considered. -/
def ivfApproxCandidates (t : Table) (q : QuerySpec) (idx : IvfPqIndex) : List Candidate :=
  let parts := rankPartitions q.metricType q.queryVector idx.centroids q.nprobes.toNat
  let entries := (parts.map (fun i => idx.postings.getD i [])).flatten
  let entries :=
    if q.prefilter then
      entries.filter (fun e => (admissibleRows t q).any (fun r => r.rowId == e.1))
    else entries
  entries.filterMap (fun e =>
    (t.rows.find? (fun r => r.rowId == e.1)).map (fun r =>
      ⟨r, approxDist q.metricType idx.codebooks idx.numSubVectors q.queryVector e.2⟩))

/-- Modelled from the spec: §4.4 Refining — when `refineFactor > 1`, each
retained candidate's exact distance is recomputed against the true stored
vector and the pool re-sorted; when `refineFactor ≤ 1` the refine step is
skipped and approximate distances stand. -/
def refineCandidates (q : QuerySpec) (pool : List Candidate) : List Candidate :=
  if q.refineFactor ≤ 1 then pool
  else
    List.insertionSort candOrder
      (pool.map (fun c => ⟨c.row, dist q.metricType q.queryVector (lookupVec c.row q.vectorColumn)⟩))

/-- Final candidates of the index-accelerated path: rank the approximate
candidates, keep the top `k * refineFactor`, refine, post-filter, truncate to
`k` (spec §4.4). -/
def ivfFinal (t : Table) (q : QuerySpec) (idx : IvfPqIndex) : List Candidate :=
  let pool := (List.insertionSort candOrder (ivfApproxCandidates t q idx)).take (poolSize q)
  let refined := refineCandidates q pool
  let filtered := if q.prefilter then refined else refined.filter (passesFilter q)
  filtered.take q.k.toNat

/-- Modelled from the spec: §4.4 — query execution against an IndexStore:
validate, then use the IVF-PQ index for the vector column when one exists,
falling back to the exact full scan otherwise (the required fallback, not an
error). -/
def executeWithStore (store : IndexStore) (t : Table) (q : QuerySpec) :
    Except DbError (List (List ResultRow)) :=
  match validateQuery t.schema q with
  | .error e => .error e
  | .ok _ =>
    match findIvf store q.vectorColumn with
    | some idx => .ok (chunkList batchSize ((ivfFinal t q idx).map (projectRow q.projection)))
    | none => .ok (resultBatches t q)

/-! ### Persisted index artifact (spec §6) -/

/-- One atom of the persisted artifact encoding (spec §6: the byte layout is
an implementation choice; the model persists a self-describing atom list). -/
inductive PersistAtom
  | nat (n : Nat)
  | rat (q : ℚ)
  | str (s : String)
deriving DecidableEq

/-- Encode a natural number. -/
def encNat (n : Nat) : List PersistAtom := [.nat n]

/-- Decode a natural number, returning the remaining atoms. -/
def decNat : List PersistAtom → Option (Nat × List PersistAtom)
  | .nat n :: r => some (n, r)
  | _ => none

/-- Encode a rational. -/
def encRat (q : ℚ) : List PersistAtom := [.rat q]

/-- Decode a rational. -/
def decRat : List PersistAtom → Option (ℚ × List PersistAtom)
  | .rat q :: r => some (q, r)
  | _ => none

/-- Encode a string. -/
def encStr (s : String) : List PersistAtom := [.str s]

/-- Decode a string. -/
def decStr : List PersistAtom → Option (String × List PersistAtom)
  | .str s :: r => some (s, r)
  | _ => none

/-- Encode a metric type as a tag. -/
def encMetric : MetricType → List PersistAtom
  | .l2 => [.nat 0]
  | .cosine => [.nat 1]
  | .dot => [.nat 2]

/-- Decode a metric type. -/
def decMetric : List PersistAtom → Option (MetricType × List PersistAtom)
  | .nat 0 :: r => some (.l2, r)
  | .nat 1 :: r => some (.cosine, r)
  | .nat 2 :: r => some (.dot, r)
  | _ => none

/-- Encode a list as a length header followed by the encoded elements. -/
def encList (f : α → List PersistAtom) (l : List α) : List PersistAtom :=
  .nat l.length :: (l.map f).flatten

/-- Decode exactly `n` consecutive elements. -/
def decCount (g : List PersistAtom → Option (α × List PersistAtom)) :
    Nat → List PersistAtom → Option (List α × List PersistAtom)
  | 0, r => some ([], r)
  | n + 1, r => do
    let (a, r') ← g r
    let (as, r'') ← decCount g n r'
    some (a :: as, r'')

/-- Decode a length-prefixed list. -/
def decList (g : List PersistAtom → Option (α × List PersistAtom))
    (l : List PersistAtom) : Option (List α × List PersistAtom) := do
  let (n, r) ← decNat l
  decCount g n r

/-- Encode a vector. -/
def encVec (v : Vec) : List PersistAtom := encList encRat v

/-- Decode a vector. -/
def decVec (l : List PersistAtom) : Option (Vec × List PersistAtom) := decList decRat l

/-- Encode one posting entry `(rowId, pqCode)`. -/
def encPosting (e : Nat × List Nat) : List PersistAtom := encNat e.1 ++ encList encNat e.2

/-- Decode one posting entry. -/
def decPosting (l : List PersistAtom) : Option ((Nat × List Nat) × List PersistAtom) := do
  let (i, r) ← decNat l
  let (c, r') ← decList decNat r
  some ((i, c), r')

/-- Modelled from the spec: §6 persisted index artifact layout — a
self-describing encoding of the IVF-PQ artifact (column, metric, shape,
centroids, codebooks, posting lists). -/
def encodeIndex (idx : IvfPqIndex) : List PersistAtom :=
  encStr idx.column ++ encMetric idx.metricType ++ encNat idx.numPartitions ++
  encNat idx.numSubVectors ++ encNat idx.numBits ++ encList encVec idx.centroids ++
  encList (encList encVec) idx.codebooks ++ encList (encList encPosting) idx.postings

/-- Modelled from the spec: §6 — reopen a persisted artifact without
rebuilding; fails on malformed input. -/
def decodeIndex (l : List PersistAtom) : Option IvfPqIndex := do
  let (c, r) ← decStr l
  let (m, r) ← decMetric r
  let (np, r) ← decNat r
  let (ns, r) ← decNat r
  let (nb, r) ← decNat r
  let (cents, r) ← decList decVec r
  let (cbs, r) ← decList (decList decVec) r
  let (posts, r) ← decList (decList decPosting) r
  if r.isEmpty then some ⟨c, m, np, ns, nb, cents, cbs, posts⟩ else none

/-! ### Consume-once configuration semantics (spec §3, §9) -/

/-- Setter methods of `Query` in `native.d.ts`, as functions on the query
configuration. -/
def Query.column (c : String) (q : QuerySpec) : QuerySpec := { q with vectorColumn := c }

/-- `Query.filter` of `native.d.ts` (the parsed predicate). -/
def Query.filter (p : Pred) (q : QuerySpec) : QuerySpec := { q with filterPredicate := some p }

/-- `Query.select` of `native.d.ts`. -/
def Query.select (cols : List String) (q : QuerySpec) : QuerySpec := { q with projection := cols }

/-- `Query.limit` of `native.d.ts`. -/
def Query.limit (n : Int) (q : QuerySpec) : QuerySpec := { q with k := n }

/-- `Query.prefilter` of `native.d.ts`. -/
def Query.prefilterSet (b : Bool) (q : QuerySpec) : QuerySpec := { q with prefilter := b }

/-- `Query.nearestTo` of `native.d.ts`. -/
def Query.nearestTo (v : Vec) (q : QuerySpec) : QuerySpec := { q with queryVector := v }

/-- `Query.refineFactor` of `native.d.ts`. -/
def Query.refineFactorSet (n : Int) (q : QuerySpec) : QuerySpec := { q with refineFactor := n }

/-- `Query.nprobes` of `native.d.ts`. -/
def Query.nprobesSet (n : Int) (q : QuerySpec) : QuerySpec := { q with nprobes := n }

/-- Setter methods of `IndexBuilder` in `native.d.ts`. -/
def Builder.replaceSet (b : Bool) (p : IndexParams) : IndexParams := { p with replace := b }

/-- `IndexBuilder.column` of `native.d.ts`. -/
def Builder.columnSet (c : String) (p : IndexParams) : IndexParams := { p with column := c }

/-- `IndexBuilder.name` of `native.d.ts`. -/
def Builder.nameSet (n : String) (p : IndexParams) : IndexParams := { p with name := n }

/-- An operation on a configure-then-consume object: a configuration setter,
or starting the consuming call (`executeStream` / `build`). -/
inductive TraceOp (σ : Type)
  | set (f : σ → σ)
  | consume

/-- State of a configure-then-consume object: the current configuration and
the snapshots consumed by each started execution, in order. -/
structure TraceState (σ : Type) where
  cfg : σ
  consumed : List σ

/-- Modelled from the spec: §3 "Immutable once execution starts" and §9 — the
consuming call takes an immutable snapshot of the configuration at the moment
it starts; setters only affect the configuration used by later calls. -/
def traceStep (s : TraceState σ) : TraceOp σ → TraceState σ
  | .set f => ⟨f s.cfg, s.consumed⟩
  | .consume => ⟨s.cfg, s.consumed ++ [s.cfg]⟩

/-- Run a sequence of operations on a configure-then-consume object. -/
def runTrace (s : TraceState σ) (ops : List (TraceOp σ)) : TraceState σ :=
  ops.foldl traceStep s

/-- Number of consuming calls in an operation sequence. -/
def consumeCount (ops : List (TraceOp σ)) : Nat :=
  ops.countP (fun op => match op with | .consume => true | .set _ => false)

/-! ### BatchStream / RecordBatchIterator (spec §4.5) -/

/-- Modelled from the spec: §4.5 BatchStream behind `RecordBatchIterator` of
`native.d.ts` — the finished result batches together with the pull position.
A yielded batch is the model of a non-null `Buffer`; exhaustion is the `none`
result of `next`. -/
structure RecordBatchIterator where
  batches : List (List ResultRow)
  pos : Nat
deriving DecidableEq

/-- `RecordBatchIterator.next` of `native.d.ts`: yield the batch at the
current position and advance, or report end-of-stream with `none` (never an
error) and stay put. -/
def RecordBatchIterator.next (it : RecordBatchIterator) :
    Option (List ResultRow) × RecordBatchIterator :=
  match it.batches[it.pos]? with
  | some b => (some b, ⟨it.batches, it.pos + 1⟩)
  | none => (none, it)

/-- Apply `next` `n` times, keeping only the final iterator state. -/
def RecordBatchIterator.advanceN : Nat → RecordBatchIterator → RecordBatchIterator
  | 0, it => it
  | n + 1, it => RecordBatchIterator.advanceN n it.next.2

/-- `Query.executeStream` of `native.d.ts`: execute and wrap the batches in a
fresh iterator. -/
def executeStream (t : Table) (q : QuerySpec) : Except DbError RecordBatchIterator :=
  (execute t q).map (fun bs => ⟨bs, 0⟩)

/-! ### Concrete instances used to witness the theorems -/

/-- Schema of the worked examples: a 1-dimensional vector column `v` and a
scalar column `x`. -/
def exSchema : Schema := ⟨[("v", ColType.vector 1), ("x", ColType.scalar)]⟩

/-- Three-row example table: vectors `[0]`, `[1]`, `[2]`; the scalar `x` is
`0` on row 0 and `1` on rows 1 and 2. -/
def exTable : Table :=
  ⟨exSchema,
   [⟨0, [("v", [0])], [("x", 0)]⟩,
    ⟨1, [("v", [1])], [("x", 1)]⟩,
    ⟨2, [("v", [2])], [("x", 1)]⟩]⟩

/-- Prefilter example query: nearest to `[0]`, `k = 2`, filter `x = 1`,
`prefilter = true`. -/
def exPrefilterQuery : QuerySpec :=
  ⟨"v", [0], 2, some (Pred.eqv "x" 1), true, [], 1, 1, MetricType.l2⟩

/-- Postfilter example query: nearest to `[0]`, `k = 2`, filter `x = 1`,
`prefilter = false`. -/
def exPostfilterQuery : QuerySpec :=
  ⟨"v", [0], 2, some (Pred.eqv "x" 1), false, [], 1, 1, MetricType.l2⟩

/-- A structurally invalid query against the example schema: wrong
dimensionality (2 instead of 1), `k = 0`, `nprobes = 0`, and a filter over an
unknown column. -/
def exInvalidQuery : QuerySpec :=
  ⟨"v", [0, 0], 0, some (Pred.eqv "y" 1), true, [], 1, 0, MetricType.l2⟩

/-- Valid IvfPq build parameters for the example table. -/
def exBuildParams : IndexParams :=
  ⟨"idx", "v", true, IndexType.ivfPq, MetricType.l2, 2, 1, 1, 1⟩

/-- Invalid IvfPq build parameters: `numSubVectors = 2` does not divide the
dimensionality 1. -/
def exBadBuildParams : IndexParams :=
  ⟨"idx", "v", false, IndexType.ivfPq, MetricType.l2, 2, 2, 1, 1⟩

/-- Valid IvfPq build parameters with `replace = false`, named like an
existing index. -/
def exNoReplaceParams : IndexParams :=
  ⟨"idx", "v", false, IndexType.ivfPq, MetricType.l2, 2, 1, 1, 1⟩

/-- An example store already holding an index named `idx`. -/
def exStore : IndexStore := [("idx", IndexArtifact.scalar "x" [])]

/-- Build parameters asking for more partitions (5) than the example table
has distinct vectors (3). -/
def exCapParams : IndexParams :=
  ⟨"idx", "v", true, IndexType.ivfPq, MetricType.l2, 5, 1, 1, 1⟩

/-! ### Helper lemmas -/

theorem chunkAux_flatten {α : Type} (cap : Nat) :
    ∀ (l cur : List α) (rem : Nat), (chunkAux cap l cur rem).flatten = cur.reverse ++ l := by
  intro l
  induction l with
  | nil =>
    intro cur rem
    cases hc : cur.isEmpty
    · simp [chunkAux, hc]
    · simp [chunkAux, hc, List.isEmpty_iff.mp hc]
  | cons x xs ih =>
    intro cur rem
    cases rem with
    | zero => simp [chunkAux, ih]
    | succ r => simp [chunkAux, ih]

/-- Concatenating the batches restores the result rows: batching never loses,
duplicates or reorders rows. -/
theorem chunkList_flatten {α : Type} (cap : Nat) (l : List α) :
    (chunkList cap l).flatten = l := by
  cases l with
  | nil => rfl
  | cons x xs => simp [chunkList, chunkAux_flatten]

theorem validateQuery_ok_iff (s : Schema) (q : QuerySpec) :
    validateQuery s q = .ok () ↔ queryValidB s q = true := by
  unfold validateQuery
  cases h : queryValidB s q <;> simp [h]

theorem queryValid_unpack {s : Schema} {q : QuerySpec} (h : validateQuery s q = .ok ()) :
    schemaVecDim s q.vectorColumn = some q.queryVector.length ∧ 0 < q.k ∧ 0 < q.nprobes ∧
    1 ≤ q.refineFactor ∧ predOkB s q.filterPredicate = true := by
  have hb := (validateQuery_ok_iff s q).mp h
  unfold queryValidB at hb
  simp only [Bool.and_eq_true, decide_eq_true_eq, beq_iff_eq] at hb
  exact ⟨hb.1.1.1.1, hb.1.1.1.2, hb.1.1.2, hb.1.2, hb.2⟩

theorem execute_ok {t : Table} {q : QuerySpec} (h : validateQuery t.schema q = .ok ()) :
    execute t q = .ok (resultBatches t q) := by
  unfold execute
  rw [h]

/-- Under prefilter with a predicate, the considered rows are exactly the rows
satisfying the predicate. -/
theorem consideredRows_prefilter {t : Table} {q : QuerySpec} {p : Pred}
    (hfp : q.filterPredicate = some p) (hpre : q.prefilter = true) :
    consideredRows t q = t.rows.filter (fun r => evalPred p r) := by
  unfold consideredRows admissibleRows
  rw [hpre, hfp]
  simp

theorem rankedCandidates_length (t : Table) (q : QuerySpec) :
    (rankedCandidates t q).length = (consideredRows t q).length := by
  unfold rankedCandidates
  rw [List.length_insertionSort, List.length_map]

/-- The pool holds at least `k` candidates' worth of room when
`refineFactor ≥ 1`. -/
theorem k_le_poolSize {q : QuerySpec} (hrf : 1 ≤ q.refineFactor) :
    q.k.toNat ≤ poolSize q := by
  unfold poolSize
  have h1 : 1 ≤ q.refineFactor.toNat := by omega
  exact Nat.le_mul_of_pos_right _ (by omega)

/-- Membership in the ranked candidate list comes from a considered row. -/
theorem mem_rankedCandidates {t : Table} {q : QuerySpec} {c : Candidate}
    (hc : c ∈ rankedCandidates t q) :
    ∃ r ∈ consideredRows t q, c = candOf q.metricType q.queryVector q.vectorColumn r := by
  unfold rankedCandidates at hc
  rw [List.mem_insertionSort, List.mem_map] at hc
  obtain ⟨r, hr, hcr⟩ := hc
  exact ⟨r, hr, hcr.symm⟩

/-! ### C1 -/

/-- C1: for every query executed with `prefilter=true` whose admissible rowId
set (rows satisfying the filter predicate) contains at least `k` rows, the
result stream contains exactly `k` rows and every returned row satisfies the
filter predicate. -/
theorem prefilter_returns_exactly_k (t : Table) (q : QuerySpec) (p : Pred)
    (hfp : q.filterPredicate = some p) (hpre : q.prefilter = true)
    (hval : validateQuery t.schema q = .ok ())
    (hk : q.k.toNat ≤ (t.rows.filter (fun r => evalPred p r)).length) :
    ∃ bs, execute t q = .ok bs ∧ bs.flatten.length = q.k.toNat ∧
      ∀ rr ∈ bs.flatten, ∃ r ∈ t.rows, evalPred p r = true ∧ rr.rowId = r.rowId := by
  obtain ⟨-, -, -, hrf, -⟩ := queryValid_unpack hval
  refine ⟨resultBatches t q, execute_ok hval, ?_, ?_⟩
  all_goals
    rw [resultBatches, chunkList_flatten]
  · -- the result has exactly k rows
    have hcons := consideredRows_prefilter (t := t) hfp hpre
    have hfin : finalCandidates t q = (rankedCandidates t q).take q.k.toNat := by
      unfold finalCandidates postFiltered searchPool
      rw [hpre, if_pos rfl, List.take_take, Nat.min_eq_left (k_le_poolSize hrf)]
    rw [resultRows, List.length_map, hfin, List.length_take, rankedCandidates_length, hcons,
      Nat.min_eq_left hk]
  · -- every returned row satisfies the predicate
    intro rr hrr
    rw [resultRows, List.mem_map] at hrr
    obtain ⟨c, hc, hrc⟩ := hrr
    have hc' : c ∈ rankedCandidates t q := by
      have : finalCandidates t q ⊆ rankedCandidates t q := by
        unfold finalCandidates postFiltered searchPool
        rw [hpre, if_pos rfl]
        exact (List.take_subset _ _).trans (List.take_subset _ _)
      exact this hc
    obtain ⟨r, hr, hcr⟩ := mem_rankedCandidates hc'
    rw [consideredRows_prefilter hfp hpre, List.mem_filter] at hr
    refine ⟨r, hr.1, hr.2, ?_⟩
    rw [← hrc, hcr]
    rfl

/-- Witness for C1 at the example table and prefilter query. -/
theorem prefilter_returns_exactly_k_witness :
    ∃ bs, execute exTable exPrefilterQuery = .ok bs ∧
      bs.flatten.length = exPrefilterQuery.k.toNat ∧
      ∀ rr ∈ bs.flatten, ∃ r ∈ exTable.rows,
        evalPred (Pred.eqv "x" 1) r = true ∧ rr.rowId = r.rowId :=
  prefilter_returns_exactly_k exTable exPrefilterQuery (Pred.eqv "x" 1) rfl rfl
    (by decide) (by decide)

/-! ### C2 -/

/-- C2 fails as stated: with `prefilter=false`, dropping happens after
ranking, so a returned row can be farther than a dropped candidate that
ranked closer.  On the example table (`k = 2`, query `[0]`, filter `x = 1`)
the approximate top-2 is row 0 (distance 0, fails the filter, dropped) and
row 1 (distance 1, returned): the returned distance 1 exceeds the dropped
distance 0. -/
theorem postfilter_drop_counterexample :
    execute exTable exPostfilterQuery = .ok (resultBatches exTable exPostfilterQuery) ∧
    ∃ rr ∈ (resultBatches exTable exPostfilterQuery).flatten,
      ∃ c ∈ droppedCandidates exTable exPostfilterQuery, c.distance < rr.distance := by
  with_unfolding_all decide

/-- C2 (amended): for every query executed with `prefilter=false`, the result
contains at most `k` rows, and every returned row satisfies the filter
predicate and is drawn from the approximate top candidate pool — dropped
candidates are not replaced by re-ranking further candidates. -/
theorem postfilter_result_within_pool (t : Table) (q : QuerySpec) (p : Pred)
    (hfp : q.filterPredicate = some p) (hpre : q.prefilter = false)
    (hval : validateQuery t.schema q = .ok ()) :
    ∃ bs, execute t q = .ok bs ∧ bs.flatten.length ≤ q.k.toNat ∧
      ∀ rr ∈ bs.flatten, ∃ c ∈ searchPool t q,
        rr.rowId = c.row.rowId ∧ rr.distance = c.distance ∧ evalPred p c.row = true := by
  refine ⟨resultBatches t q, execute_ok hval, ?_, ?_⟩
  all_goals
    rw [resultBatches, chunkList_flatten]
  · rw [resultRows, List.length_map]
    exact (List.length_take_le _ _)
  · intro rr hrr
    rw [resultRows, List.mem_map] at hrr
    obtain ⟨c, hc, hrc⟩ := hrr
    have hc' : c ∈ (searchPool t q).filter (passesFilter q) := by
      have : finalCandidates t q ⊆ (searchPool t q).filter (passesFilter q) := by
        unfold finalCandidates postFiltered
        rw [hpre]
        simp only [Bool.false_eq_true, if_false]
        exact List.take_subset _ _
      exact this hc
    rw [List.mem_filter] at hc'
    have hpass : evalPred p c.row = true := by
      have := hc'.2
      unfold passesFilter at this
      rw [hfp] at this
      exact this
    subst hrc
    exact ⟨c, hc'.1, rfl, rfl, hpass⟩

/-- Witness for the amended C2 at the example table and postfilter query. -/
theorem postfilter_result_within_pool_witness :
    ∃ bs, execute exTable exPostfilterQuery = .ok bs ∧
      bs.flatten.length ≤ exPostfilterQuery.k.toNat ∧
      ∀ rr ∈ bs.flatten, ∃ c ∈ searchPool exTable exPostfilterQuery,
        rr.rowId = c.row.rowId ∧ rr.distance = c.distance ∧
        evalPred (Pred.eqv "x" 1) c.row = true :=
  postfilter_result_within_pool exTable exPostfilterQuery (Pred.eqv "x" 1) rfl rfl (by decide)

/-! ### C3 -/

/-- C3: the rows yielded across all batches of the result stream are in
globally ascending distance order with ties broken by ascending rowId (no
batch boundary violates the order), and execution is deterministic: two
executions of the same query over the same data yield identical results. -/
theorem stream_globally_sorted_deterministic (t : Table) (q : QuerySpec)
    (hval : validateQuery t.schema q = .ok ()) :
    ∃ bs, execute t q = .ok bs ∧ bs.flatten.Pairwise resultOrder ∧
      ∀ out₁ out₂ : Except DbError (List (List ResultRow)),
        out₁ = execute t q → out₂ = execute t q → out₁ = out₂ := by
  refine ⟨resultBatches t q, execute_ok hval, ?_, ?_⟩
  · rw [resultBatches, chunkList_flatten]
    have hsorted : (rankedCandidates t q).Pairwise candOrder :=
      List.sorted_insertionSort candOrder _
    have hsub : List.Sublist (finalCandidates t q) (rankedCandidates t q) := by
      unfold finalCandidates postFiltered searchPool
      refine (List.take_sublist _ _).trans ?_
      cases q.prefilter
      · simp only [Bool.false_eq_true, if_false]
        exact (List.filter_sublist _).trans (List.take_sublist _ _)
      · simp only [if_true]
        exact List.take_sublist _ _
    have hfin : (finalCandidates t q).Pairwise candOrder := hsorted.sublist hsub
    rw [resultRows]
    exact List.Pairwise.map _ (fun a b h => h) hfin
  · intro out₁ out₂ h1 h2
    rw [h1, h2]

/-- Witness for C3 at the example table and prefilter query. -/
theorem stream_globally_sorted_deterministic_witness :
    ∃ bs, execute exTable exPrefilterQuery = .ok bs ∧ bs.flatten.Pairwise resultOrder ∧
      ∀ out₁ out₂ : Except DbError (List (List ResultRow)),
        out₁ = execute exTable exPrefilterQuery → out₂ = execute exTable exPrefilterQuery →
        out₁ = out₂ :=
  stream_globally_sorted_deterministic exTable exPrefilterQuery (by decide)

/-! ### C4 -/

theorem queryInvalid_validB_false {sch : Schema} {q : QuerySpec} (hq : queryInvalid sch q) :
    queryValidB sch q = false := by
  cases hvb : queryValidB sch q
  · rfl
  · exfalso
    unfold queryValidB at hvb
    simp only [Bool.and_eq_true, decide_eq_true_eq, beq_iff_eq] at hvb
    rcases hq with hx | hx | hx | hx
    · exact hx hvb.1.1.1.1
    · have := hvb.1.1.1.2
      omega
    · have := hvb.1.1.2
      omega
    · rw [hvb.2] at hx
      cases hx

theorem buildInvalid_validB_false {sch : Schema} {p : IndexParams} (hp : buildInvalid sch p) :
    buildValidB sch p = false := by
  obtain ⟨ht, hdiv⟩ := hp
  unfold buildValidB
  rw [ht]
  unfold subVectorsDivideB at hdiv
  cases hvd : schemaVecDim sch p.column with
  | none => rfl
  | some d =>
    rw [hvd] at hdiv
    simp only [decide_eq_false_iff_not] at hdiv
    simp [hdiv]

/-- C4: for every invalid query or build parameterization (query-vector
dimensionality not matching the column, `numSubVectors` not dividing the
dimensionality, unknown column, malformed filter predicate, `k ≤ 0`,
`nprobes ≤ 0`), execute/build fail with `ConfigError` — and no other error
class — synchronously before any table data is read: the outcome is the same
for any row contents. -/
theorem config_error_fails_fast (sch : Schema) (rows rows' : List Row) (q : QuerySpec)
    (store : IndexStore) (p : IndexParams)
    (hq : queryInvalid sch q) (hp : buildInvalid sch p) :
    execute ⟨sch, rows⟩ q = .error .configError ∧
    execute ⟨sch, rows⟩ q = execute ⟨sch, rows'⟩ q ∧
    buildIndex store ⟨sch, rows⟩ p = (store, .error .configError) ∧
    buildIndex store ⟨sch, rows⟩ p = buildIndex store ⟨sch, rows'⟩ p := by
  have hvb := queryInvalid_validB_false hq
  have hbb := buildInvalid_validB_false hp
  have hex : ∀ rs : List Row, execute ⟨sch, rs⟩ q = .error .configError := by
    intro rs
    simp [execute, validateQuery, hvb]
  have hbd : ∀ rs : List Row, buildIndex store ⟨sch, rs⟩ p = (store, .error .configError) := by
    intro rs
    simp [buildIndex, validateBuild, hbb]
  exact ⟨hex rows, by rw [hex rows, hex rows'], hbd rows, by rw [hbd rows, hbd rows']⟩

/-- Witness for C4 at the example schema: an invalid query (wrong
dimensionality, `k = 0`, `nprobes = 0`, unknown filter column) and an invalid
build (`numSubVectors = 2` not dividing dimensionality 1). -/
theorem config_error_fails_fast_witness :
    execute exTable exInvalidQuery = .error .configError ∧
    execute exTable exInvalidQuery = execute ⟨exSchema, []⟩ exInvalidQuery ∧
    buildIndex [] exTable exBadBuildParams = ([], .error .configError) ∧
    buildIndex [] exTable exBadBuildParams = buildIndex [] ⟨exSchema, []⟩ exBadBuildParams :=
  config_error_fails_fast exSchema exTable.rows [] exInvalidQuery [] exBadBuildParams
    (by unfold queryInvalid; decide) (by unfold buildInvalid; decide)

/-! ### C5 -/

theorem lookup_filter_ne (n name : String) (h : n ≠ name) :
    ∀ l : IndexStore, (l.filter (fun e => e.1 != name)).lookup n = l.lookup n := by
  intro l
  induction l with
  | nil => rfl
  | cons e rest ih =>
    rw [List.filter_cons]
    by_cases he : e.1 = name
    · have hd : (e.1 != name) = false := by simp [he]
      rw [hd]
      simp only [Bool.false_eq_true, if_false, ih]
      have hne : (n == e.1) = false := by simp [he, h]
      simp [List.lookup, hne]
    · have hd : (e.1 != name) = true := by simp [he]
      rw [hd]
      simp only [if_true]
      cases hne : n == e.1 <;> simp [List.lookup, hne, ih]

theorem lookup_publishIndex_self (store : IndexStore) (name : String) (art : IndexArtifact) :
    (publishIndex store name art).lookup name = some art := by
  unfold publishIndex
  simp [List.lookup]

theorem lookup_publishIndex_ne (store : IndexStore) (name n : String) (art : IndexArtifact)
    (h : n ≠ name) : (publishIndex store name art).lookup n = store.lookup n := by
  unfold publishIndex
  have hne : (n == name) = false := by simp [h]
  simp only [List.lookup, hne]
  exact lookup_filter_ne n name h store

/-- A validated build with `replace=true` publishes unconditionally. -/
theorem buildIndex_replace_eq (store : IndexStore) (t : Table) (p : IndexParams)
    (hrep : p.replace = true) (hval : validateBuild t.schema p = .ok ()) :
    buildIndex store t p = (publishIndex store p.name (builtArtifact t p), .ok ()) := by
  unfold buildIndex
  rw [hval, if_neg (by simp [hrep])]

/-- Publishing the same artifact under the same name twice equals publishing
it once. -/
theorem publishIndex_idem (store : IndexStore) (name : String) (art : IndexArtifact) :
    publishIndex (publishIndex store name art) name art = publishIndex store name art := by
  unfold publishIndex
  have hd : (((name, art) : String × IndexArtifact).1 != name) = false := by simp
  rw [List.filter_cons, hd]
  simp only [Bool.false_eq_true, if_false, List.filter_filter]
  simp [Bool.and_self]

/-- C5 fails as stated: configuration validation precedes the conflict check
(spec §7: `ConfigError` is "always surfaced synchronously before any data
access"), so a build with `replace=false` and an existing index of the same
name but invalid parameters (`numSubVectors = 2` not dividing dimensionality
1) fails with `ConfigError`, not `ConflictError`. -/
theorem replace_conflict_counterexample :
    (exStore.lookup exBadBuildParams.name).isSome = true ∧
    exBadBuildParams.replace = false ∧
    (buildIndex exStore exTable exBadBuildParams).2 = .error .configError ∧
    ¬ (buildIndex exStore exTable exBadBuildParams).2 = .error .conflictError := by
  decide

/-- C5 (amended): for every index build passing configuration validation,
with `replace=false` and an index of the same name already present, build
fails with `ConflictError` and the store is unchanged; with `replace=true`
the prior artifact is superseded atomically in a single visible step — after
the build the name maps to the new artifact and every other name is
untouched. -/
theorem replace_semantics (store : IndexStore) (t : Table) (p : IndexParams)
    (hval : validateBuild t.schema p = .ok ()) :
    (p.replace = false → (store.lookup p.name).isSome = true →
      buildIndex store t p = (store, .error .conflictError)) ∧
    (p.replace = true →
      buildIndex store t p = (publishIndex store p.name (builtArtifact t p), .ok ()) ∧
      (publishIndex store p.name (builtArtifact t p)).lookup p.name = some (builtArtifact t p) ∧
      ∀ n, n ≠ p.name →
        (publishIndex store p.name (builtArtifact t p)).lookup n = store.lookup n) := by
  constructor
  · intro h1 h2
    unfold buildIndex
    rw [hval, if_pos ⟨h1, h2⟩]
  · intro h2
    exact ⟨buildIndex_replace_eq store t p h2 hval,
      lookup_publishIndex_self store p.name (builtArtifact t p),
      fun n hn => lookup_publishIndex_ne store p.name n (builtArtifact t p) hn⟩

/-- Witness for the amended C5: on a store holding `idx`, a valid
`replace=false` build named `idx` fails with `ConflictError` and leaves the
store untouched. -/
theorem replace_semantics_witness :
    buildIndex exStore exTable exNoReplaceParams = (exStore, .error .conflictError) :=
  (replace_semantics exStore exTable exNoReplaceParams (by decide)).1 rfl (by decide)

/-! ### C6 -/

/-- C6: building an index with `replace=true` twice with identical parameters
on unchanged data is idempotent: the store after the second build equals the
store after the first, and therefore every query returns the same results
after either build. -/
theorem rebuild_idempotent (store : IndexStore) (t : Table) (p : IndexParams)
    (hrep : p.replace = true) (hval : validateBuild t.schema p = .ok ()) :
    (buildIndex (buildIndex store t p).1 t p).1 = (buildIndex store t p).1 ∧
    ∀ q : QuerySpec, executeWithStore (buildIndex (buildIndex store t p).1 t p).1 t q =
      executeWithStore (buildIndex store t p).1 t q := by
  have h1 := buildIndex_replace_eq store t p hrep hval
  have h2 := buildIndex_replace_eq (publishIndex store p.name (builtArtifact t p)) t p hrep hval
  have hs : (buildIndex (buildIndex store t p).1 t p).1 = (buildIndex store t p).1 := by
    rw [h1]
    show (buildIndex (publishIndex store p.name (builtArtifact t p)) t p).1 =
      publishIndex store p.name (builtArtifact t p)
    rw [h2]
    exact publishIndex_idem store p.name (builtArtifact t p)
  exact ⟨hs, fun q => by rw [hs]⟩

/-- Witness for C6 at the example table and valid build parameters. -/
theorem rebuild_idempotent_witness :
    (buildIndex (buildIndex [] exTable exBuildParams).1 exTable exBuildParams).1 =
      (buildIndex [] exTable exBuildParams).1 ∧
    ∀ q : QuerySpec,
      executeWithStore (buildIndex (buildIndex [] exTable exBuildParams).1 exTable
        exBuildParams).1 exTable q =
      executeWithStore (buildIndex [] exTable exBuildParams).1 exTable q :=
  rebuild_idempotent [] exTable exBuildParams rfl (by decide)

/-! ### C7 -/

theorem decNat_enc (n : Nat) (r : List PersistAtom) : decNat (encNat n ++ r) = some (n, r) := rfl

theorem decRat_enc (q : ℚ) (r : List PersistAtom) : decRat (encRat q ++ r) = some (q, r) := rfl

theorem decStr_enc (s : String) (r : List PersistAtom) : decStr (encStr s ++ r) = some (s, r) :=
  rfl

theorem decMetric_enc (m : MetricType) (r : List PersistAtom) :
    decMetric (encMetric m ++ r) = some (m, r) := by
  cases m <;> rfl

theorem decCount_enc {α : Type} {f : α → List PersistAtom}
    {g : List PersistAtom → Option (α × List PersistAtom)}
    (hfg : ∀ a r, g (f a ++ r) = some (a, r)) :
    ∀ (l : List α) (r : List PersistAtom),
      decCount g l.length ((l.map f).flatten ++ r) = some (l, r) := by
  intro l
  induction l with
  | nil => intro r; rfl
  | cons a as ih =>
    intro r
    simp only [List.map_cons, List.flatten_cons, List.length_cons, List.append_assoc]
    simp [decCount, hfg, ih]

theorem decList_enc {α : Type} {f : α → List PersistAtom}
    {g : List PersistAtom → Option (α × List PersistAtom)}
    (hfg : ∀ a r, g (f a ++ r) = some (a, r)) (l : List α) (r : List PersistAtom) :
    decList g (encList f l ++ r) = some (l, r) := by
  have h : encList f l ++ r = PersistAtom.nat l.length :: ((l.map f).flatten ++ r) := by
    simp [encList]
  rw [h]
  simp [decList, decNat, decCount_enc hfg]

theorem decVec_enc (v : Vec) (r : List PersistAtom) : decVec (encVec v ++ r) = some (v, r) :=
  decList_enc decRat_enc v r

theorem decVecs_enc (l : List Vec) (r : List PersistAtom) :
    decList decVec (encList encVec l ++ r) = some (l, r) :=
  decList_enc decVec_enc l r

theorem decCbs_enc (l : List (List Vec)) (r : List PersistAtom) :
    decList (decList decVec) (encList (encList encVec) l ++ r) = some (l, r) :=
  decList_enc decVecs_enc l r

theorem decPosting_enc (e : Nat × List Nat) (r : List PersistAtom) :
    decPosting (encPosting e ++ r) = some (e, r) := by
  have h : encPosting e ++ r = encNat e.1 ++ (encList encNat e.2 ++ r) := by
    simp [encPosting]
  rw [h]
  simp [decPosting, decNat, encNat, decList_enc decNat_enc]

theorem decPostList_enc (l : List (Nat × List Nat)) (r : List PersistAtom) :
    decList decPosting (encList encPosting l ++ r) = some (l, r) :=
  decList_enc decPosting_enc l r

theorem decPostings_enc (l : List (List (Nat × List Nat))) (r : List PersistAtom) :
    decList (decList decPosting) (encList (encList encPosting) l ++ r) = some (l, r) :=
  decList_enc decPostList_enc l r

/-- Decoding a persisted artifact restores it exactly. -/
theorem decodeIndex_encodeIndex (idx : IvfPqIndex) :
    decodeIndex (encodeIndex idx) = some idx := by
  have h : encodeIndex idx =
      encStr idx.column ++ (encMetric idx.metricType ++ (encNat idx.numPartitions ++
      (encNat idx.numSubVectors ++ (encNat idx.numBits ++ (encList encVec idx.centroids ++
      (encList (encList encVec) idx.codebooks ++
      (encList (encList encPosting) idx.postings ++ []))))))) := by
    simp [encodeIndex]
  rw [h]
  have h8 : decList (decList decPosting) (encList (encList encPosting) idx.postings) =
      some (idx.postings, []) := by
    have := decPostings_enc idx.postings []
    simpa using this
  simp [decodeIndex, decStr_enc, decMetric_enc, decNat_enc, encNat, decNat,
    decVecs_enc, decCbs_enc, h8]

/-- C7: building an IvfPq index, persisting it, reloading it, and executing a
query yields exactly the same results as executing the same query against the
freshly built artifact over the same data (the exact-rational model loses no
precision, so equality holds outright, a fortiori within floating-point
tolerance). -/
theorem persist_reload_roundtrip (t : Table) (p : IndexParams) (q : QuerySpec) (name : String) :
    ∃ reloaded, decodeIndex (encodeIndex (buildIvfPq t p)) = some reloaded ∧
      executeWithStore [(name, .ivfPq reloaded)] t q =
      executeWithStore [(name, .ivfPq (buildIvfPq t p))] t q :=
  ⟨buildIvfPq t p, decodeIndex_encodeIndex (buildIvfPq t p), rfl⟩

/-! ### C8 -/

theorem kmeansStep_length (m : MetricType) (pts cs : List Vec) :
    (kmeansStep m pts cs).length = cs.length := by
  unfold kmeansStep
  rw [List.length_map, List.enum_length]

theorem kmeansIter_length (m : MetricType) (pts : List Vec) :
    ∀ (n : Nat) (cs : List Vec), (kmeansIter m pts n cs).length = cs.length := by
  intro n
  induction n with
  | zero => intro cs; rfl
  | succ k ih =>
    intro cs
    rw [kmeansIter, ih, kmeansStep_length]

/-- k-means always succeeds and produces `min numClusters distinct` centroids. -/
theorem kmeansTrain_length (m : MetricType) (pts : List Vec) (n it : Nat) :
    (kmeansTrain m pts n it).length = min n pts.dedup.length := by
  unfold kmeansTrain
  rw [kmeansIter_length, List.length_take]

/-- C8: a build asking for more partitions than there are distinct training
vectors never fails: it completes successfully with the effective number of
partitions capped at the number of distinct training points. -/
theorem partitions_capped (store : IndexStore) (t : Table) (p : IndexParams)
    (hval : validateBuild t.schema p = .ok ()) (hrep : p.replace = true)
    (hcap : (trainingVectors t p).dedup.length < p.numPartitions) :
    (buildIndex store t p).2 = .ok () ∧
    (buildIvfPq t p).centroids.length = (trainingVectors t p).dedup.length := by
  constructor
  · rw [buildIndex_replace_eq store t p hrep hval]
  · show (kmeansTrain p.metricType (trainingVectors t p) p.numPartitions
      p.maxIterations).length = _
    rw [kmeansTrain_length, Nat.min_eq_right (Nat.le_of_lt hcap)]

/-- Witness for C8: 5 partitions requested over 3 distinct vectors. -/
theorem partitions_capped_witness :
    (buildIndex [] exTable exCapParams).2 = .ok () ∧
    (buildIvfPq exTable exCapParams).centroids.length =
      (trainingVectors exTable exCapParams).dedup.length :=
  partitions_capped [] exTable exCapParams (by decide) rfl (by decide)

/-! ### C9 -/

theorem runTrace_append {σ : Type} (s : TraceState σ) (a b : List (TraceOp σ)) :
    runTrace s (a ++ b) = runTrace (runTrace s a) b := by
  unfold runTrace
  rw [List.foldl_append]

theorem runTrace_split {σ : Type} :
    ∀ (ops : List (TraceOp σ)) (c : σ) (ex : List σ),
      (runTrace ⟨c, ex⟩ ops).consumed = ex ++ (runTrace ⟨c, []⟩ ops).consumed ∧
      (runTrace ⟨c, ex⟩ ops).cfg = (runTrace ⟨c, []⟩ ops).cfg := by
  intro ops
  induction ops with
  | nil =>
    intro c ex
    simp [runTrace]
  | cons op rest ih =>
    intro c ex
    cases op with
    | set f =>
      have h1 := ih (f c) ex
      exact ⟨h1.1, h1.2⟩
    | consume =>
      have h1 := ih c (ex ++ [c])
      have h2 := ih c [c]
      have hl : runTrace ⟨c, ex⟩ (TraceOp.consume :: rest) = runTrace ⟨c, ex ++ [c]⟩ rest := rfl
      have hr : runTrace ⟨c, []⟩ (TraceOp.consume :: rest) = runTrace ⟨c, [c]⟩ rest := rfl
      constructor
      · rw [hl, hr, h1.1, h2.1]
        simp
      · rw [hl, hr, h1.2, h2.2]

theorem runTrace_consumed_length {σ : Type} :
    ∀ (ops : List (TraceOp σ)) (c : σ) (ex : List σ),
      (runTrace ⟨c, ex⟩ ops).consumed.length = ex.length + consumeCount ops := by
  intro ops
  induction ops with
  | nil =>
    intro c ex
    simp [runTrace, consumeCount]
  | cons op rest ih =>
    intro c ex
    cases op with
    | set f =>
      have h1 := ih (f c) ex
      have hc : consumeCount (TraceOp.set f :: rest) = consumeCount rest := by
        simp [consumeCount, List.countP_cons]
      rw [hc]
      exact h1
    | consume =>
      have h1 := ih c (ex ++ [c])
      have hc : consumeCount (TraceOp.consume :: rest) = consumeCount rest + 1 := by
        simp [consumeCount, List.countP_cons]
      have hl : runTrace ⟨c, ex⟩ (TraceOp.consume :: rest) = runTrace ⟨c, ex ++ [c]⟩ rest := rfl
      rw [hl, h1, hc]
      simp
      omega

/-- The snapshot consumed by an execution started after `ops₁` is the
configuration at that moment, whatever operations follow. -/
theorem runTrace_consume_snapshot {σ : Type} (c0 : σ) (ops₁ ops₂ : List (TraceOp σ)) :
    (runTrace ⟨c0, []⟩ (ops₁ ++ TraceOp.consume :: ops₂)).consumed[consumeCount ops₁]? =
      some ((runTrace ⟨c0, []⟩ ops₁).cfg) := by
  rw [runTrace_append]
  have hstep : runTrace (runTrace ⟨c0, []⟩ ops₁) (TraceOp.consume :: ops₂) =
      runTrace ⟨(runTrace ⟨c0, []⟩ ops₁).cfg,
        (runTrace ⟨c0, []⟩ ops₁).consumed ++ [(runTrace ⟨c0, []⟩ ops₁).cfg]⟩ ops₂ := rfl
  rw [hstep, (runTrace_split ops₂ _ _).1]
  have hlen : (runTrace (⟨c0, []⟩ : TraceState σ) ops₁).consumed.length = consumeCount ops₁ := by
    have := runTrace_consumed_length ops₁ c0 []
    simpa using this
  rw [List.append_assoc, List.getElem?_append_right (by rw [hlen])]
  rw [hlen]
  simp

/-- C9: query and index-build configurations are immutable once consumed —
the execution started by `executeStream`/`build` uses the configuration
snapshot taken when it started; configuration setters applied afterwards
(`ops₂`) have no effect on that execution's snapshot or its results. -/
theorem config_immutable_once_consumed :
    (∀ (q0 : QuerySpec) (ops₁ ops₂ : List (TraceOp QuerySpec)) (t : Table),
      (runTrace ⟨q0, []⟩ (ops₁ ++ TraceOp.consume :: ops₂)).consumed[consumeCount ops₁]? =
        some ((runTrace ⟨q0, []⟩ ops₁).cfg) ∧
      ((runTrace ⟨q0, []⟩ (ops₁ ++ TraceOp.consume :: ops₂)).consumed[consumeCount ops₁]?).map
        (fun s => execute t s) = some (execute t ((runTrace ⟨q0, []⟩ ops₁).cfg))) ∧
    (∀ (b0 : IndexParams) (ops₁ ops₂ : List (TraceOp IndexParams)) (store : IndexStore)
        (t : Table),
      (runTrace ⟨b0, []⟩ (ops₁ ++ TraceOp.consume :: ops₂)).consumed[consumeCount ops₁]? =
        some ((runTrace ⟨b0, []⟩ ops₁).cfg) ∧
      ((runTrace ⟨b0, []⟩ (ops₁ ++ TraceOp.consume :: ops₂)).consumed[consumeCount ops₁]?).map
        (fun s => buildIndex store t s) =
        some (buildIndex store t ((runTrace ⟨b0, []⟩ ops₁).cfg))) := by
  constructor
  · intro q0 ops₁ ops₂ t
    have h := runTrace_consume_snapshot q0 ops₁ ops₂
    exact ⟨h, by rw [h]; rfl⟩
  · intro b0 ops₁ ops₂ store t
    have h := runTrace_consume_snapshot b0 ops₁ ops₂
    exact ⟨h, by rw [h]; rfl⟩

/-! ### C10 -/

theorem next_none_fixed {it : RecordBatchIterator} (h : it.batches[it.pos]? = none) :
    it.next = (none, it) := by
  unfold RecordBatchIterator.next
  rw [h]

theorem advanceN_fixed {it : RecordBatchIterator} (h : it.next = (none, it)) :
    ∀ n, RecordBatchIterator.advanceN n it = it := by
  intro n
  induction n with
  | zero => rfl
  | succ k ih =>
    show RecordBatchIterator.advanceN k it.next.2 = it
    rw [h]
    exact ih

/-- C10: the result iterator signals end-of-stream by `next` resolving to
`none` rather than an error: every call either yields the batch at the
current position or reports `none` leaving the iterator unchanged, and once
the stream is exhausted every subsequent `next` still resolves to `none`. -/
theorem iterator_end_null (it : RecordBatchIterator) :
    ((∃ b, it.next = (some b, ⟨it.batches, it.pos + 1⟩) ∧ it.batches[it.pos]? = some b) ∨
      (it.next = (none, it) ∧ it.batches.length ≤ it.pos)) ∧
    (it.next.1 = none → ∀ n, (RecordBatchIterator.advanceN n it).next.1 = none) := by
  constructor
  · cases hb : it.batches[it.pos]? with
    | some b =>
      refine Or.inl ⟨b, ?_, rfl⟩
      unfold RecordBatchIterator.next
      rw [hb]
    | none =>
      exact Or.inr ⟨next_none_fixed hb, List.getElem?_eq_none_iff.mp hb⟩
  · intro hnone n
    have hb : it.batches[it.pos]? = none := by
      by_contra hc
      obtain ⟨b, hb⟩ := Option.ne_none_iff_exists'.mp hc
      unfold RecordBatchIterator.next at hnone
      rw [hb] at hnone
      cases hnone
    have hfix := next_none_fixed hb
    rw [advanceN_fixed hfix n, hfix]

/-- Witness for C10: the exhausted empty iterator keeps answering `none`. -/
theorem iterator_end_null_witness :
    (RecordBatchIterator.advanceN 2 ⟨[], 0⟩).next.1 = none :=
  (iterator_end_null ⟨[], 0⟩).2 rfl 2

end LanceDB
